import Mathlib

/-!
Verification of the cgopt job-orchestration core against its specification.

The development shallowly embeds the two source files of the repository:
`src/OptimizationJob.cpp` (type-name demangling and runtime type identity
used for artifact resolution) and `src/Manager/CSAOptManager.h` (the
singleton manager and its job/result API).  Manager member functions that
are only declared in the header (their bodies are not part of the
repository snapshot) are modelled from the specification, and each such
definition says so in its doc comment.
-/

namespace CGOpt

/-! ## Demangling (src/OptimizationJob.cpp, lines 13-32)

`abi::__cxa_demangle` is an external C runtime routine; it is embedded as
an oracle `cxa : String → Option String`, where `some s` stands for a call
that sets `status == 0` and yields the buffer `s`, and `none` stands for
any failing call (nonzero status / null buffer). -/

/-- Embeds `CGOpt::OptimizationJob::demangle` as compiled under `__GNUG__`
(src/OptimizationJob.cpp lines 13-23): call `abi::__cxa_demangle`; if the
status is 0 return the demangled buffer, otherwise return the input name
unchanged. -/
def demangle (cxa : String → Option String) (name : String) : String :=
  match cxa name with
  | some res => res
  | none => name

/-- Embeds `CGOpt::OptimizationJob::demangle` as compiled with a non-GNU
toolchain (src/OptimizationJob.cpp lines 25-32): the fallback returns the
input name unchanged ("does nothing if not g++"). -/
def demangleNonGNU (name : String) : String :=
  name

/-! ## Runtime type identity (src/OptimizationJob.cpp, lines 35-41)

A C++ object carries its runtime type; `typeid(x).name()` on an lvalue of
polymorphic class type observes the dynamic type of the object, not the
static type of the expression.  A polymorphic handle (the
`std::shared_ptr<Target>` / `std::shared_ptr<Optimization>` members of
`OptimizationJob`) therefore records both the statically declared type
name and the pointed-to object, and dereferencing it exposes the object. -/

/-- A C++ object, reduced to the one observation the resolver makes of it:
the string `typeid(x).name()` produces for it, which by C++ semantics names
the object's dynamic (most-derived) type. -/
structure CppObject where
  typeidName : String
deriving DecidableEq, Repr

/-- A polymorphic handle (`std::shared_ptr` to a base class): the declared
static type name of the handle and the pointed-to instance. -/
structure PolyHandle where
  staticTypeName : String
  obj : CppObject
deriving DecidableEq, Repr

/-- Dereferencing the handle (`*p.get()`) reaches the pointed-to object. -/
def PolyHandle.deref (p : PolyHandle) : CppObject :=
  p.obj

/-- Modelled from the spec: the `type` helper of `OptimizationJob.h` (the
header is not under src/, only its .cpp is).  Per §4.1 the resolver takes
the runtime type name of the observed object and demangles it before any
lookup, i.e. `type(x) = demangle(typeid(x).name())`. -/
def typeOf (cxa : String → Option String) (x : CppObject) : String :=
  demangle cxa x.typeidName

/-- Embeds the `OptimizationJob` fields the visible code touches: the
polymorphic `target` and `optimization` members. -/
structure OptimizationJob where
  target : PolyHandle
  optimization : PolyHandle
deriving DecidableEq, Repr

/-- Embeds `CGOpt::OptimizationJob::getTargetClassFile`
(src/OptimizationJob.cpp lines 35-37): `return type(*target.get());`. -/
def OptimizationJob.getTargetClassFile (cxa : String → Option String)
    (job : OptimizationJob) : String :=
  typeOf cxa job.target.deref

/-- Embeds `CGOpt::OptimizationJob::getOptClassFile`
(src/OptimizationJob.cpp lines 39-41): `return type(*optimization.get());`. -/
def OptimizationJob.getOptClassFile (cxa : String → Option String)
    (job : OptimizationJob) : String :=
  typeOf cxa job.optimization.deref

/-! ## Job lifecycle (spec §4.5)

`CSAOptManager::run`, `abort` and the rest of the driving routine are only
declared in `src/Manager/CSAOptManager.h`; their bodies are not part of the
repository snapshot, so the lifecycle machinery below is modelled from the
specification. -/

/-- Modelled from the spec: the lifecycle `Status` of a Job (§4.5); the
bodies realising it are not under src/. -/
inductive Status where
  | Pending
  | Resolving
  | Provisioning
  | Deploying
  | Running
  | Completed
  | Failed
  | Aborted
deriving DecidableEq, Repr, Fintype

/-- Terminal states per §4.5: Completed, Failed, Aborted. -/
def Status.isTerminal : Status → Bool
  | .Completed => true
  | .Failed => true
  | .Aborted => true
  | _ => false

/-- Position of a status along the forward lifecycle; all three terminal
states share the final rank. -/
def Status.rank : Status → Nat
  | .Pending => 0
  | .Resolving => 1
  | .Provisioning => 2
  | .Deploying => 3
  | .Running => 4
  | .Completed => 5
  | .Failed => 5
  | .Aborted => 5

/-- The transition edges of §4.5: the forward chain, the failure edges out
of Resolving/Provisioning/Deploying, the Running self-loop per poll cycle,
completion, and `* → Aborted` from any non-terminal state. -/
def statusEdge : Status → Status → Bool
  | .Pending, .Resolving => true
  | .Resolving, .Provisioning => true
  | .Resolving, .Failed => true
  | .Provisioning, .Deploying => true
  | .Provisioning, .Failed => true
  | .Deploying, .Running => true
  | .Deploying, .Failed => true
  | .Running, .Running => true
  | .Running, .Completed => true
  | s, .Aborted => !s.isTerminal
  | _, _ => false

/-- Modelled from the spec: the external events observed by the driving
routine of §4.5 (submission, resolver outcome, gateway outcomes, a poll
cycle, remote completion, an abort request). -/
inductive OrchEvent where
  | submit
  | resolveOk
  | resolveFail
  | provisionOk
  | provisionFail
  | deployOk
  | deployFail
  | poll
  | complete
  | abortReq
deriving DecidableEq, Repr, Fintype

/-- Modelled from the spec: the status update the §4.5 driving routine
performs on an event; `none` means the event does not apply in the current
state and the routine leaves the Job untouched. -/
def stepStatus : Status → OrchEvent → Option Status
  | .Pending, .submit => some .Resolving
  | .Resolving, .resolveOk => some .Provisioning
  | .Resolving, .resolveFail => some .Failed
  | .Provisioning, .provisionOk => some .Deploying
  | .Provisioning, .provisionFail => some .Failed
  | .Deploying, .deployOk => some .Running
  | .Deploying, .deployFail => some .Failed
  | .Running, .poll => some .Running
  | .Running, .complete => some .Completed
  | s, .abortReq => if s.isTerminal then none else some .Aborted
  | _, _ => none

/-! ## Jobs, results and the job store (spec §3, §4.6)

`getResults`, `getResultsBlocking` and the `jobCache` are declared in
`src/Manager/CSAOptManager.h` (lines 31-32, 50) but their bodies are not
under src/; the store below is modelled from the specification. -/

/-- Modelled from the spec: a result snapshot (§3) — a Target-shaped
candidate with a monotonically increasing sequence number and a
timestamp.  The candidate payload is kept abstract as a string. -/
structure ResultSnapshot where
  seq : Nat
  value : String
  timestamp : Nat
deriving DecidableEq, Repr

/-- Modelled from the spec: the per-Job record the store keeps — lifecycle
status and the ordered sequence of result snapshots (§3). -/
structure ManagedJob where
  status : Status
  results : List ResultSnapshot
deriving DecidableEq, Repr

/-- The sequence number the next appended snapshot receives: one past the
last appended sequence number, 0 for the first snapshot. -/
def nextSeq (j : ManagedJob) : Nat :=
  match j.results.getLast? with
  | some r => r.seq + 1
  | none => 0

/-- Appending a snapshot to a Job's append-only result log. -/
def appendResult (j : ManagedJob) (v : String) (ts : Nat) : ManagedJob :=
  { j with results := j.results ++ [⟨nextSeq j, v, ts⟩] }

/-- Sequence numbers along a snapshot list are strictly increasing. -/
def seqStrictMono : List ResultSnapshot → Bool
  | [] => true
  | [_] => true
  | a :: b :: t => decide (a.seq < b.seq) && seqStrictMono (b :: t)

/-- Modelled from the spec: the `jobCache` member of `CSAOptManager`
(declared src/Manager/CSAOptManager.h line 50, a `std::map<std::string,
OptimizationJob>`), embedded as an association list keyed by job id. -/
abbrev JobStore := List (String × ManagedJob)

/-- Map lookup by job id. -/
def lookupJob : List (String × ManagedJob) → String → Option ManagedJob
  | [], _ => none
  | (k, j) :: t, id => if k = id then some j else lookupJob t id

/-- Map update in place of the entry for a job id. -/
def updateJob : List (String × ManagedJob) → String →
    (ManagedJob → ManagedJob) → List (String × ManagedJob)
  | [], _, _ => []
  | (k, j) :: t, id, f =>
      if k = id then (k, f j) :: t else (k, j) :: updateJob t id f

/-- Modelled from the spec: the mutations of the job store — submission of
a fresh Job, a lifecycle step by the driving routine, a poll cycle
appending one new snapshot (§4.5 Running → Running). -/
inductive StoreOp where
  | submit (id : String)
  | orch (id : String) (e : OrchEvent)
  | append (id : String) (v : String) (ts : Nat)
deriving DecidableEq, Repr

/-- Modelled from the spec: applying one mutation to the store.  `submit`
inserts a fresh Pending Job only when the id is absent; `orch` advances the
status per `stepStatus`; `append` appends a snapshot to a Running Job. -/
def applyOp (S : JobStore) : StoreOp → JobStore
  | .submit id =>
      match lookupJob S id with
      | some _ => S
      | none => S ++ [(id, ⟨.Pending, []⟩)]
  | .orch id e =>
      updateJob S id (fun j =>
        match stepStatus j.status e with
        | some s => { j with status := s }
        | none => j)
  | .append id v ts =>
      updateJob S id (fun j =>
        if j.status = .Running then appendResult j v ts else j)

/-- Applying a whole sequence of mutations. -/
def applyOps (S : JobStore) : List StoreOp → JobStore
  | [] => S
  | op :: ops => applyOps (applyOp S op) ops

/-- Every Job record in the store has a strictly increasing result log. -/
def storeInv (S : JobStore) : Prop :=
  ∀ id j, lookupJob S id = some j → seqStrictMono j.results = true

/-! ## Retrieval and submission API (spec §4.5, §4.6) -/

/-- Modelled from the spec: the error taxonomy of §7 (the members relevant
to the claims). -/
inductive OrchError where
  | JobAlreadyActiveError
  | NotFoundError
  | AbortedError
deriving DecidableEq, Repr

/-- Modelled from the spec: `CSAOptManager::getResults` (declared
src/Manager/CSAOptManager.h line 31, body not under src/) — an immediate,
non-blocking snapshot of everything accumulated so far, `NotFoundError`
for an unknown id (§4.6). -/
def getResults (S : JobStore) (id : String) :
    Except OrchError (List ResultSnapshot) :=
  match lookupJob S id with
  | none => Except.error .NotFoundError
  | some j => Except.ok j.results

/-- The result log currently recorded for an id ([] when absent); the
payload `getResults` succeeds with. -/
def resultsOf (S : JobStore) (id : String) : List ResultSnapshot :=
  match lookupJob S id with
  | none => []
  | some j => j.results

/-- Modelled from the spec: the wake-up condition of `getResultsBlocking`
(§4.6) for a caller whose last observed sequence number is `w` — a
snapshot newer than `w` exists, or the Job is terminal; an unknown id
wakes immediately (to fail with `NotFoundError`). -/
def wakes (S : JobStore) (id : String) (w : Nat) : Bool :=
  match lookupJob S id with
  | none => true
  | some j => j.status.isTerminal || j.results.any (fun r => w < r.seq)

/-- Modelled from the spec: what `getResultsBlocking` delivers once awake —
`NotFoundError` for an unknown id, `AbortedError` on the abort path, and
otherwise the accumulated snapshots (§4.6). -/
def blockingReturn (S : JobStore) (id : String) :
    Except OrchError (List ResultSnapshot) :=
  match lookupJob S id with
  | none => Except.error .NotFoundError
  | some j =>
      if j.status = .Aborted then Except.error .AbortedError
      else Except.ok j.results

/-- Modelled from the spec: `CSAOptManager::getResultsBlocking` (declared
src/Manager/CSAOptManager.h line 32, body not under src/).  The store
states the caller would observe while suspended form a trace indexed by
time; the call stays blocked through every state in which `wakes` is
false and delivers from the first state in which it is true. -/
def getResultsBlocking (trace : Nat → JobStore) (id : String) (w : Nat)
    (h : ∃ n, wakes (trace n) id w = true) :
    Except OrchError (List ResultSnapshot) :=
  blockingReturn (trace (Nat.find h)) id

/-- Modelled from the spec: `CSAOptManager::run` (declared
src/Manager/CSAOptManager.h line 46, body not under src/) — the single
submission entry point of §4.5.  An id already present and non-terminal is
rejected synchronously with `JobAlreadyActiveError` and the store is left
untouched; a terminal id may be re-run (the explicit Retry path); a fresh
id is inserted as a Pending Job.  The string result echoes the job id, as
in the declared `std::string` return type. -/
def run (S : JobStore) (id : String) : Except OrchError String × JobStore :=
  match lookupJob S id with
  | some j =>
      if j.status.isTerminal then
        (Except.ok id, updateJob S id (fun _ => ⟨.Pending, []⟩))
      else
        (Except.error .JobAlreadyActiveError, S)
  | none => (Except.ok id, S ++ [(id, ⟨.Pending, []⟩)])

/-! ## The singleton manager (src/Manager/CSAOptManager.h, lines 18-25, 38-42) -/

/-- Modelled from the spec: a `ManagedModel` (§3) — a named template
bundling a Target type and a Strategy type; `ManagedModel.h` is not under
src/. -/
structure ManagedModel where
  targetType : String
  strategyType : String
deriving DecidableEq, Repr

/-- Embeds the state of `CSAOpt::CSAOptManager`
(src/Manager/CSAOptManager.h): the `jobCache` and `loadedModels` tables
(lines 50, 54).  The logger and tool handles carry no behaviour relevant
to the claims and are omitted. -/
structure CSAOptManager where
  jobCache : JobStore
  loadedModels : List (String × ManagedModel)
deriving DecidableEq, Repr

/-- The private constructor (src/Manager/CSAOptManager.h lines 38-40):
fresh empty tables. -/
def CSAOptManager.init : CSAOptManager :=
  ⟨[], []⟩

/-- The process-wide storage of the function-local `static CSAOptManager
instance` of `getInstance` (src/Manager/CSAOptManager.h lines 20-25): empty
before the first call, then holding the one instance. -/
structure ProcessState where
  instanceSlot : Option CSAOptManager
deriving DecidableEq, Repr

/-- Embeds `CSAOptManager::getInstance` (src/Manager/CSAOptManager.h lines
20-25): C++ initialises a function-local static on the first call only and
every call returns a reference to that same object. -/
def getInstance (s : ProcessState) : CSAOptManager × ProcessState :=
  match s.instanceSlot with
  | some m => (m, s)
  | none => (CSAOptManager.init, ⟨some CSAOptManager.init⟩)

/-! ## Helper lemmas on the store -/

/-- Looking up the id just updated yields the updated record. -/
theorem lookupJob_updateJob_self (l : List (String × ManagedJob))
    (id : String) (f : ManagedJob → ManagedJob) :
    lookupJob (updateJob l id f) id = (lookupJob l id).map f := by
  induction l with
  | nil => rfl
  | cons p t ih =>
    obtain ⟨k, j⟩ := p
    by_cases hk : k = id
    · simp [updateJob, lookupJob, hk]
    · simp [updateJob, lookupJob, hk, ih]

/-- Updating one id leaves every other id's record unchanged. -/
theorem lookupJob_updateJob_other (l : List (String × ManagedJob))
    (id id2 : String) (f : ManagedJob → ManagedJob) (hne : id2 ≠ id) :
    lookupJob (updateJob l id f) id2 = lookupJob l id2 := by
  induction l with
  | nil => rfl
  | cons p t ih =>
    obtain ⟨k, j⟩ := p
    by_cases hk : k = id
    · have hne2 : ¬ id = id2 := fun h => hne h.symm
      simp [updateJob, lookupJob, hk, hne2]
    · by_cases hk2 : k = id2
      · simp [updateJob, lookupJob, hk, hk2, hne]
      · simp [updateJob, lookupJob, hk, hk2, ih]

/-- A record present before an append at the end is still found, unchanged. -/
theorem lookupJob_append_of_some (l m : List (String × ManagedJob))
    (id : String) (j : ManagedJob) (h : lookupJob l id = some j) :
    lookupJob (l ++ m) id = some j := by
  induction l with
  | nil => exact Option.noConfusion h
  | cons p t ih =>
    obtain ⟨k, j2⟩ := p
    by_cases hk : k = id
    · simp_all [lookupJob]
    · simp_all [lookupJob]

/-- Looking up an id absent from the front list reaches the appended part. -/
theorem lookupJob_append_of_none (l m : List (String × ManagedJob))
    (id : String) (h : lookupJob l id = none) :
    lookupJob (l ++ m) id = lookupJob m id := by
  induction l with
  | nil => rfl
  | cons p t ih =>
    obtain ⟨k, j2⟩ := p
    by_cases hk : k = id
    · simp_all [lookupJob]
    · simp_all [lookupJob]

/-- Appending a snapshot whose sequence number exceeds the last one keeps
the log strictly increasing. -/
theorem seqStrictMono_append_one (l : List ResultSnapshot)
    (r : ResultSnapshot) (hl : seqStrictMono l = true)
    (hlast : ∀ x, l.getLast? = some x → x.seq < r.seq) :
    seqStrictMono (l ++ [r]) = true := by
  induction l with
  | nil => rfl
  | cons a t ih =>
    cases t with
    | nil =>
      have ha := hlast a rfl
      simp [seqStrictMono, ha]
    | cons b t2 =>
      simp only [seqStrictMono, Bool.and_eq_true, decide_eq_true_eq] at hl
      have hrec := ih hl.2 (fun x hx => hlast x (by
        rw [List.getLast?_cons_cons]
        exact hx))
      simpa [seqStrictMono, hl.1] using hrec

/-- The snapshot appended by `appendResult` outranks the previous last. -/
theorem appendResult_seqStrictMono (j : ManagedJob) (v : String) (ts : Nat)
    (h : seqStrictMono j.results = true) :
    seqStrictMono (appendResult j v ts).results = true := by
  apply seqStrictMono_append_one j.results _ h
  intro x hx
  simp only [nextSeq, hx]
  exact Nat.lt_succ_self x.seq

/-- Looking up a record, stated as an equation on `resultsOf`. -/
theorem resultsOf_of_some (S : JobStore) (id : String) (j : ManagedJob)
    (h : lookupJob S id = some j) : resultsOf S id = j.results := by
  simp [resultsOf, h]

/-- An absent id has the empty result log. -/
theorem resultsOf_of_none (S : JobStore) (id : String)
    (h : lookupJob S id = none) : resultsOf S id = [] := by
  simp [resultsOf, h]

/-- The record rewrite of an `orch` mutation never touches the result log. -/
theorem orchStep_results (j : ManagedJob) (e : OrchEvent) :
    (match stepStatus j.status e with
      | some s => { j with status := s }
      | none => j).results = j.results := by
  cases stepStatus j.status e <;> rfl

/-- One store mutation preserves the strictly-increasing-log invariant and
only ever extends a Job's result log at the end. -/
theorem applyOp_preserves (S : JobStore) (op : StoreOp) (hinv : storeInv S) :
    storeInv (applyOp S op) ∧
    ∀ id, resultsOf S id <+: resultsOf (applyOp S op) id := by
  cases op with
  | submit nid =>
    cases hfind : lookupJob S nid with
    | some j =>
      simp only [applyOp, hfind]
      exact ⟨hinv, fun id => List.prefix_refl _⟩
    | none =>
      simp only [applyOp, hfind]
      constructor
      · intro id j hj
        cases hold : lookupJob S id with
        | some j2 =>
          rw [lookupJob_append_of_some S _ id j2 hold] at hj
          cases hj
          exact hinv id j hold
        | none =>
          rw [lookupJob_append_of_none S _ id hold] at hj
          simp only [lookupJob] at hj
          by_cases hid : nid = id
          · rw [if_pos hid] at hj
            cases hj
            rfl
          · rw [if_neg hid] at hj
            exact Option.noConfusion hj
      · intro id
        cases hold : lookupJob S id with
        | some j2 =>
          rw [resultsOf_of_some S id j2 hold,
            resultsOf_of_some _ id j2 (lookupJob_append_of_some S _ id j2 hold)]
        | none =>
          rw [resultsOf_of_none S id hold]
          exact List.nil_prefix
  | orch oid e =>
    constructor
    · intro id j hj
      by_cases hid : id = oid
      · subst hid
        rw [applyOp, lookupJob_updateJob_self] at hj
        cases hold : lookupJob S id with
        | some j2 =>
          rw [hold] at hj
          simp only [Option.map_some'] at hj
          cases hj
          rw [orchStep_results]
          exact hinv id j2 hold
        | none =>
          rw [hold] at hj
          exact Option.noConfusion hj
      · rw [applyOp, lookupJob_updateJob_other _ _ _ _ hid] at hj
        exact hinv id j hj
    · intro id
      by_cases hid : id = oid
      · subst hid
        cases hold : lookupJob S id with
        | some j2 =>
          have hfound : lookupJob (applyOp S (StoreOp.orch id e)) id =
              some (match stepStatus j2.status e with
                | some s => { j2 with status := s }
                | none => j2) := by
            rw [applyOp, lookupJob_updateJob_self, hold]
            rfl
          rw [resultsOf_of_some S id j2 hold, resultsOf_of_some _ id _ hfound,
            orchStep_results]
        | none =>
          rw [resultsOf_of_none S id hold]
          exact List.nil_prefix
      · have hsame : lookupJob (applyOp S (StoreOp.orch oid e)) id =
            lookupJob S id := by
          rw [applyOp, lookupJob_updateJob_other _ _ _ _ hid]
        cases hold : lookupJob S id with
        | some j2 =>
          rw [resultsOf_of_some S id j2 hold,
            resultsOf_of_some _ id j2 (by rw [hsame, hold])]
        | none =>
          rw [resultsOf_of_none S id hold]
          exact List.nil_prefix
  | append aid v ts =>
    constructor
    · intro id j hj
      by_cases hid : id = aid
      · subst hid
        rw [applyOp, lookupJob_updateJob_self] at hj
        cases hold : lookupJob S id with
        | some j2 =>
          rw [hold] at hj
          simp only [Option.map_some'] at hj
          by_cases hrun : j2.status = Status.Running
          · rw [if_pos hrun] at hj
            cases hj
            exact appendResult_seqStrictMono j2 v ts (hinv id j2 hold)
          · rw [if_neg hrun] at hj
            cases hj
            exact hinv id j hold
        | none =>
          rw [hold] at hj
          exact Option.noConfusion hj
      · rw [applyOp, lookupJob_updateJob_other _ _ _ _ hid] at hj
        exact hinv id j hj
    · intro id
      by_cases hid : id = aid
      · subst hid
        cases hold : lookupJob S id with
        | some j2 =>
          have hfound : lookupJob (applyOp S (StoreOp.append id v ts)) id =
              some (if j2.status = Status.Running
                then appendResult j2 v ts else j2) := by
            rw [applyOp, lookupJob_updateJob_self, hold]
            rfl
          by_cases hrun : j2.status = Status.Running
          · rw [resultsOf_of_some S id j2 hold, resultsOf_of_some _ id _ hfound,
              if_pos hrun]
            exact List.prefix_append _ _
          · rw [resultsOf_of_some S id j2 hold, resultsOf_of_some _ id _ hfound,
              if_neg hrun]
        | none =>
          rw [resultsOf_of_none S id hold]
          exact List.nil_prefix
      · have hsame : lookupJob (applyOp S (StoreOp.append aid v ts)) id =
            lookupJob S id := by
          rw [applyOp, lookupJob_updateJob_other _ _ _ _ hid]
        cases hold : lookupJob S id with
        | some j2 =>
          rw [resultsOf_of_some S id j2 hold,
            resultsOf_of_some _ id j2 (by rw [hsame, hold])]
        | none =>
          rw [resultsOf_of_none S id hold]
          exact List.nil_prefix

/-- Any sequence of store mutations preserves the invariant and only grows
each Job's result log. -/
theorem applyOps_preserves (ops : List StoreOp) (S : JobStore)
    (hinv : storeInv S) :
    storeInv (applyOps S ops) ∧
    ∀ id, resultsOf S id <+: resultsOf (applyOps S ops) id := by
  induction ops generalizing S with
  | nil => exact ⟨hinv, fun id => List.prefix_refl _⟩
  | cons op rest ih =>
    obtain ⟨h1, h2⟩ := applyOp_preserves S op hinv
    obtain ⟨h3, h4⟩ := ih (applyOp S op) h1
    exact ⟨h3, fun id => (h2 id).trans (h4 id)⟩

/-! ## Claim theorems -/

/-- Claim C1: every status update the driving routine performs follows an
edge of the §4.5 state machine, transitions are monotonic along the
lifecycle (no backward transition; the Abort edges also move forward into
the terminal rank), and no edge lets a Job skip from Resolving directly to
Running. -/
theorem status_transitions_follow_edges (s t : Status) (e : OrchEvent)
    (h : stepStatus s e = some t) :
    (statusEdge s t = true ∧ Status.rank s ≤ Status.rank t) ∧
    (∀ e2, stepStatus Status.Resolving e2 ≠ some Status.Running) := by
  revert h
  revert t
  revert e
  revert s
  decide

/-- Witness for C1 at the submission edge Pending → Resolving. -/
theorem status_transitions_follow_edges_witness :
    statusEdge Status.Pending Status.Resolving = true :=
  (status_transitions_follow_edges Status.Pending Status.Resolving
    OrchEvent.submit rfl).1.1

/-- Claim C2: a submission for a job id already present in a non-terminal
state is rejected synchronously with `JobAlreadyActiveError`, the store is
left exactly as it was, and the active Job's record — the execution the
first call drives — is unchanged. -/
theorem run_rejects_active_id (S : JobStore) (id : String) (j : ManagedJob)
    (hfound : lookupJob S id = some j)
    (hactive : j.status.isTerminal = false) :
    run S id = (Except.error OrchError.JobAlreadyActiveError, S) ∧
    lookupJob (run S id).2 id = some j := by
  have h1 : run S id = (Except.error OrchError.JobAlreadyActiveError, S) := by
    simp [run, hfound, hactive]
  refine ⟨h1, ?_⟩
  rw [h1]
  exact hfound

/-- Witness for C2: re-submitting a Running job id is rejected and the
store is untouched. -/
theorem run_rejects_active_id_witness :
    run [("job-1", ⟨Status.Running, []⟩)] "job-1" =
      (Except.error OrchError.JobAlreadyActiveError,
        [("job-1", ⟨Status.Running, []⟩)]) :=
  (run_rejects_active_id [("job-1", ⟨Status.Running, []⟩)] "job-1"
    ⟨Status.Running, []⟩ rfl rfl).1

/-- Claim C3: every Job's result log is append-only — under any sequence
of store mutations the previously observed log stays a prefix of the new
one (never reordered or rewritten), so no later `getResults` returns fewer
snapshots than an earlier call, and every log `getResults` returns has
strictly increasing sequence numbers. -/
theorem results_append_only (S : JobStore) (ops : List StoreOp)
    (id : String) (hinv : storeInv S) :
    resultsOf S id <+: resultsOf (applyOps S ops) id ∧
    (resultsOf S id).length ≤ (resultsOf (applyOps S ops) id).length ∧
    (∀ rs, getResults (applyOps S ops) id = Except.ok rs →
      seqStrictMono rs = true) := by
  obtain ⟨hinv2, hpre⟩ := applyOps_preserves ops S hinv
  refine ⟨hpre id, (hpre id).length_le, ?_⟩
  intro rs hrs
  cases hfind : lookupJob (applyOps S ops) id with
  | none => simp [getResults, hfind] at hrs
  | some j2 =>
    simp only [getResults, hfind, Except.ok.injEq] at hrs
    rw [← hrs]
    exact hinv2 id j2 hfind

/-- Witness for C3: growing an empty store by a submission and an append
keeps the (empty) previously observed log a prefix. -/
theorem results_append_only_witness :
    resultsOf [] "job-1" <+:
      resultsOf (applyOps [] [StoreOp.submit "job-1"]) "job-1" :=
  (results_append_only [] [StoreOp.submit "job-1"] "job-1"
    (fun _ _ h => Option.noConfusion h)).1

/-- Claim C4: `getResultsBlocking` stays blocked through every store state
in which no snapshot newer than the caller's watermark exists and the Job
is not terminal, and delivers from the first state in which one does (or
the Job is terminal); when the wake condition already holds at call time —
in particular when the Job is already terminal with no unseen results — it
returns immediately (index 0); an unknown id fails with `NotFoundError`
and an aborted Job with `AbortedError`, otherwise it returns the
accumulated snapshots. -/
theorem getResultsBlocking_blocks_until_wake (trace : Nat → JobStore)
    (id : String) (w : Nat)
    (h : ∃ n, wakes (trace n) id w = true) :
    (∀ m, m < Nat.find h → wakes (trace m) id w = false) ∧
    wakes (trace (Nat.find h)) id w = true ∧
    (wakes (trace 0) id w = true → Nat.find h = 0) ∧
    (lookupJob (trace (Nat.find h)) id = none →
      getResultsBlocking trace id w h = Except.error OrchError.NotFoundError) ∧
    (∀ j, lookupJob (trace (Nat.find h)) id = some j →
      (j.status = Status.Aborted →
        getResultsBlocking trace id w h = Except.error OrchError.AbortedError) ∧
      (j.status ≠ Status.Aborted →
        getResultsBlocking trace id w h = Except.ok j.results)) := by
  refine ⟨?_, Nat.find_spec h, ?_, ?_, ?_⟩
  · intro m hm
    have := Nat.find_min h hm
    simpa using this
  · intro h0
    exact Nat.le_zero.mp (Nat.find_le h0)
  · intro hnone
    simp [getResultsBlocking, blockingReturn, hnone]
  · intro j hj
    constructor
    · intro habort
      simp [getResultsBlocking, blockingReturn, hj, habort]
    · intro habort
      simp [getResultsBlocking, blockingReturn, hj, habort]

/-- Witness for C4: on a constant trace whose Job is already Completed the
call returns at index 0. -/
theorem getResultsBlocking_blocks_until_wake_witness :
    Nat.find (⟨0, rfl⟩ : ∃ n,
      wakes ((fun _ => [("job-1", ⟨Status.Completed, []⟩)]) n)
        "job-1" 0 = true) = 0 :=
  (getResultsBlocking_blocks_until_wake
    (fun _ => [("job-1", ⟨Status.Completed, []⟩)]) "job-1" 0
    ⟨0, rfl⟩).2.2.1 rfl

/-- Claim C5: `getResults` is a total, immediate observation — it fails
with `NotFoundError` exactly on an unknown job id, and for a known id it
returns everything accumulated so far for that Job. -/
theorem getResults_nonblocking_snapshot (S : JobStore) (id : String) :
    (getResults S id = Except.error OrchError.NotFoundError ↔
      lookupJob S id = none) ∧
    (∀ j, lookupJob S id = some j → getResults S id = Except.ok j.results) ∧
    getResults S id ≠ Except.error OrchError.AbortedError ∧
    getResults S id ≠ Except.error OrchError.JobAlreadyActiveError := by
  cases hfind : lookupJob S id <;> simp [getResults, hfind]

/-- Witness for C5: a known id yields its accumulated snapshots. -/
theorem getResults_nonblocking_snapshot_witness :
    getResults [("job-1", ⟨Status.Running, [⟨0, "x", 7⟩]⟩)] "job-1" =
      Except.ok [⟨0, "x", 7⟩] :=
  (getResults_nonblocking_snapshot [("job-1", ⟨Status.Running, [⟨0, "x", 7⟩]⟩)]
    "job-1").2.1 ⟨Status.Running, [⟨0, "x", 7⟩]⟩ rfl

/-- Claim C6 counterexample: the same mangled runtime type name yields
different lookup keys on the two platform variants of the source — the
GNU build (with a demangler that succeeds on it) canonicalizes it, while
the non-GNU fallback returns it raw, and even the GNU build returns it raw
when `abi::__cxa_demangle` fails — so the code does not map the same
logical type to the same canonical key on every platform. -/
theorem demangle_not_canonical_counterexample :
    OptimizationJob.getTargetClassFile
      (fun n => if n = "4Fido" then some "Fido" else none)
      ⟨⟨"Target", ⟨"4Fido"⟩⟩, ⟨"Optimization", ⟨"2SA"⟩⟩⟩ = "Fido" ∧
    demangleNonGNU "4Fido" = "4Fido" ∧
    OptimizationJob.getTargetClassFile (fun _ => none)
      ⟨⟨"Target", ⟨"4Fido"⟩⟩, ⟨"Optimization", ⟨"2SA"⟩⟩⟩ = "4Fido" ∧
    ("Fido" : String) ≠ "4Fido" := by
  refine ⟨rfl, rfl, rfl, ?_⟩
  decide

/-- Claim C6 (amended): `demangle` is invoked on the runtime type name
before every artifact lookup — both class-file accessors factor through it
— and it returns the canonical demangled form exactly when
`abi::__cxa_demangle` succeeds; on demangling failure, and always on a
non-GNU toolchain, the raw platform-specific name is used as the lookup
key, so canonical keys are guaranteed only when demangling succeeds, not
on every platform. -/
theorem demangle_applied_before_every_lookup (cxa : String → Option String)
    (job : OptimizationJob) :
    OptimizationJob.getTargetClassFile cxa job =
      demangle cxa job.target.obj.typeidName ∧
    OptimizationJob.getOptClassFile cxa job =
      demangle cxa job.optimization.obj.typeidName ∧
    (∀ res, cxa job.target.obj.typeidName = some res →
      OptimizationJob.getTargetClassFile cxa job = res) ∧
    (cxa job.target.obj.typeidName = none →
      OptimizationJob.getTargetClassFile cxa job =
        job.target.obj.typeidName) ∧
    demangleNonGNU job.target.obj.typeidName = job.target.obj.typeidName := by
  refine ⟨rfl, rfl, ?_, ?_, rfl⟩
  · intro res hres
    simp [OptimizationJob.getTargetClassFile, typeOf, PolyHandle.deref,
      demangle, hres]
  · intro hres
    simp [OptimizationJob.getTargetClassFile, typeOf, PolyHandle.deref,
      demangle, hres]

/-- Witness for the amended C6: a successful demangling becomes the lookup
key. -/
theorem demangle_applied_before_every_lookup_witness :
    OptimizationJob.getTargetClassFile (fun _ => some "Fido")
      ⟨⟨"Target", ⟨"4Fido"⟩⟩, ⟨"Optimization", ⟨"2SA"⟩⟩⟩ = "Fido" :=
  (demangle_applied_before_every_lookup (fun _ => some "Fido")
    ⟨⟨"Target", ⟨"4Fido"⟩⟩, ⟨"Optimization", ⟨"2SA"⟩⟩⟩).2.2.1 "Fido" rfl

/-- Claim C7: the type identity used for artifact resolution is the
dynamic type of the instance reached through the polymorphic handle — the
class-file accessors are invariant under changing the handles' statically
declared type names, and are exactly the demangled `typeid` name of the
pointed-to object. -/
theorem classFile_uses_dynamic_type (cxa : String → Option String)
    (s1 s2 o1 o2 : String) (tObj oObj : CppObject) :
    OptimizationJob.getTargetClassFile cxa ⟨⟨s1, tObj⟩, ⟨o1, oObj⟩⟩ =
      OptimizationJob.getTargetClassFile cxa ⟨⟨s2, tObj⟩, ⟨o2, oObj⟩⟩ ∧
    OptimizationJob.getOptClassFile cxa ⟨⟨s1, tObj⟩, ⟨o1, oObj⟩⟩ =
      OptimizationJob.getOptClassFile cxa ⟨⟨s2, tObj⟩, ⟨o2, oObj⟩⟩ ∧
    OptimizationJob.getTargetClassFile cxa ⟨⟨s1, tObj⟩, ⟨o1, oObj⟩⟩ =
      demangle cxa tObj.typeidName ∧
    OptimizationJob.getOptClassFile cxa ⟨⟨s1, tObj⟩, ⟨o1, oObj⟩⟩ =
      demangle cxa oObj.typeidName :=
  ⟨rfl, rfl, rfl, rfl⟩

/-- Claim C8: artifact resolution is a pure function of the runtime type
identity of the Target/Strategy pair — two jobs whose handles point at
instances with identical runtime type names resolve to identical class
files. -/
theorem resolution_pure_in_runtime_types (cxa : String → Option String)
    (j1 j2 : OptimizationJob)
    (ht : j1.target.obj.typeidName = j2.target.obj.typeidName)
    (ho : j1.optimization.obj.typeidName = j2.optimization.obj.typeidName) :
    OptimizationJob.getTargetClassFile cxa j1 =
      OptimizationJob.getTargetClassFile cxa j2 ∧
    OptimizationJob.getOptClassFile cxa j1 =
      OptimizationJob.getOptClassFile cxa j2 := by
  constructor
  · simp [OptimizationJob.getTargetClassFile, typeOf, PolyHandle.deref, ht]
  · simp [OptimizationJob.getOptClassFile, typeOf, PolyHandle.deref, ho]

/-- Witness for C8: two jobs differing in handles and payloads but with
equal runtime type names resolve identically. -/
theorem resolution_pure_in_runtime_types_witness :
    OptimizationJob.getTargetClassFile (fun _ => none)
      ⟨⟨"A", ⟨"4Fido"⟩⟩, ⟨"B", ⟨"2SA"⟩⟩⟩ =
    OptimizationJob.getTargetClassFile (fun _ => none)
      ⟨⟨"C", ⟨"4Fido"⟩⟩, ⟨"D", ⟨"2SA"⟩⟩⟩ :=
  (resolution_pure_in_runtime_types (fun _ => none)
    ⟨⟨"A", ⟨"4Fido"⟩⟩, ⟨"B", ⟨"2SA"⟩⟩⟩
    ⟨⟨"C", ⟨"4Fido"⟩⟩, ⟨"D", ⟨"2SA"⟩⟩⟩ rfl rfl).1

/-- Claim C9: `getInstance` realises a process-wide singleton — after any
call the process slot holds exactly the returned instance, a repeated call
returns the same instance without changing the process state, and once an
instance exists every call returns it unchanged. -/
theorem getInstance_singleton (s : ProcessState) :
    (getInstance s).2.instanceSlot = some (getInstance s).1 ∧
    getInstance (getInstance s).2 = ((getInstance s).1, (getInstance s).2) ∧
    (∀ m, s.instanceSlot = some m → getInstance s = (m, s)) := by
  cases hs : s.instanceSlot with
  | some m => simp [getInstance, hs]
  | none =>
    refine ⟨?_, ?_, ?_⟩
    · simp [getInstance, hs]
    · simp [getInstance, hs]
    · intro m hm
      exact Option.noConfusion hm

/-- Witness for C9: with the instance already created, `getInstance`
returns it and leaves the process state unchanged. -/
theorem getInstance_singleton_witness :
    getInstance ⟨some CSAOptManager.init⟩ =
      (CSAOptManager.init, ⟨some CSAOptManager.init⟩) :=
  (getInstance_singleton ⟨some CSAOptManager.init⟩).2.2
    CSAOptManager.init rfl

/-- Claim C10: `demangle` is total and never reports an error to its
caller — it returns the demangled form exactly when `abi::__cxa_demangle`
succeeds with status 0, returns the input unchanged on any demangling
failure, and the non-GNU build returns the input unchanged always. -/
theorem demangle_total_never_errors (cxa : String → Option String)
    (name : String) :
    (∀ res, cxa name = some res → demangle cxa name = res) ∧
    (cxa name = none → demangle cxa name = name) ∧
    demangleNonGNU name = name := by
  refine ⟨?_, ?_, rfl⟩
  · intro res hres
    simp [demangle, hres]
  · intro hres
    simp [demangle, hres]

/-- Witness for C10: a failing demangler call falls back to the raw
name. -/
theorem demangle_total_never_errors_witness :
    demangle (fun _ => none) "N5CGOpt6TargetE" = "N5CGOpt6TargetE" :=
  (demangle_total_never_errors (fun _ => none) "N5CGOpt6TargetE").2.1 rfl

end CGOpt
